import Mathlib

/-!
Verification of the TradingLab core: the Red Candle signal detector
(`src/strategy/red_candle.py`, class `RedCandleStrategy`) and the backtest
engine (`src/analysis/backtester.py`, class `StrategyBacktester`), shallowly
embedded in Lean.

Embedding conventions:
* prices, volumes and percentages are rationals (`ℚ`); timestamps are
  rationals measured in seconds;
* a pandas cell that may be `NaN` is an `Option`;
* a Python function that may raise is an `Except`;
* DataFrames are lists of row structures, the list order being the
  (monotonically increasing, unique) timestamp order the data source
  guarantees;
* mutating loops are rendered as structural recursions / folds producing the
  same final values.
-/

namespace TradingLab

/-- Trade direction, the value of the `signal_type` column (`'LONG'`/`'SHORT'`). -/
inductive SigType where
  | LONG
  | SHORT
deriving DecidableEq

/-- The `exit_type` field of a recorded trade (`'STOP'`/`'TARGET'`/`'OPEN'`). -/
inductive ExitType where
  | STOP
  | TARGET
  | OPEN
deriving DecidableEq

/-- A Python float that is either an ordinary number or the `float('inf')`
sentinel the backtester stores as a profit factor when there are no losses. -/
inductive PyFloat where
  | finite (val : ℚ)
  | posInf
deriving DecidableEq

/-- One OHLCV bar.  `day` is the calendar date of the timestamp (pandas
`index.date`), `ts` the position of the bar in the global time order.
`open'` renders the Python column `open` (a Lean keyword). -/
structure Bar where
  day : ℕ
  ts : ℕ
  open' : ℚ
  high : ℚ
  low : ℚ
  close : ℚ
  volume : ℚ
deriving DecidableEq

/-- The data attached to a row when an entry signal fires: direction, the
row's close (the entry price) and the stoploss taken from candle I. -/
structure SignalEvent where
  signal_type : SigType
  entry_price : ℚ
  stoploss : ℚ
deriving DecidableEq

/-- A decorated row of the detector's output DataFrame
(`red_candle.py:77-83` plus the per-day marking). `signal_type = none`
renders the initial empty-string value of the column. -/
structure SigRow where
  bar : Bar
  is_first_candle : Bool
  first_red_candle : Bool
  candle_i : Bool
  long_entry : Bool
  short_entry : Bool
  stoploss : Option ℚ
  signal_type : Option SigType
  entry_signal : Bool
deriving DecidableEq

/-- The post-breakout entry scan, `red_candle.py:149-187`.  Input is the list
of `(absolute row position, close)` pairs of the bars strictly after candle I;
state is `last_close` and the two emission latches `high_signal_generated`
(`hg`) / `low_signal_generated` (`lg`).  Returns the emitted signals with
their row positions, and the final state. -/
def scan_entries (i_high i_low : ℚ) :
    ℚ → Bool → Bool → List (ℕ × ℚ) → List (ℕ × SignalEvent) × (ℚ × Bool × Bool)
  | last_close, hg, lg, [] => ([], (last_close, hg, lg))
  | last_close, hg, lg, (p, c) :: rest =>
    -- reset the latches when the close falls back inside the candle-I range
    let hg1 := if last_close > i_high ∧ c ≤ i_high then false else hg
    let lg1 := if ¬(last_close > i_high ∧ c ≤ i_high) ∧ last_close < i_low ∧ c ≥ i_low
               then false else lg
    if c > i_high then
      if last_close ≤ i_high ∨ hg1 = false then
        let r := scan_entries i_high i_low c true lg1 rest
        ((p, ⟨.LONG, c, i_low⟩) :: r.1, r.2)
      else scan_entries i_high i_low c hg1 lg1 rest
    else if c < i_low then
      if last_close ≥ i_low ∨ lg1 = false then
        let r := scan_entries i_high i_low c hg1 true rest
        ((p, ⟨.SHORT, c, i_high⟩) :: r.1, r.2)
      else scan_entries i_high i_low c hg1 lg1 rest
    else scan_entries i_high i_low c hg1 lg1 rest

/-- Number of LONG signals in a scan output. -/
def count_long (es : List (ℕ × SignalEvent)) : ℕ :=
  (es.filter fun e => decide (e.2.signal_type = SigType.LONG)).length

/-- Position of the first red candle (`close < open`), `red_candle.py:103-109`. -/
def find_first_red (bars : List Bar) : Option ℕ :=
  bars.findIdx? fun b => decide (b.close < b.open')

/-- Position of candle I, the first bar whose close breaks the red candle's
high or low (`red_candle.py:124-139`; the source checks the high first, which
cannot change which bar is found since one close satisfies at most one side
when `r_low ≤ r_high`). -/
def find_candle_i (r_high r_low : ℚ) (bars : List Bar) : Option ℕ :=
  bars.findIdx? fun b => decide (b.close > r_high) || decide (b.close < r_low)

/-- Build the decorated rows of one trading day from the positions of the
red candle and candle I and the emitted entries (the `df.loc` writes of
`red_candle.py`). -/
def decorate (bars : List Bar) (red_pos i_pos : Option ℕ)
    (entries : List (ℕ × SignalEvent)) : List SigRow :=
  bars.enum.map fun pb =>
    let j := pb.1
    let b := pb.2
    match (entries.find? fun e => decide (e.1 = j)).map (·.2) with
    | some ev =>
      match ev.signal_type with
      | .LONG => ⟨b, decide (j = 0), decide (red_pos = some j), decide (i_pos = some j),
                  true, false, some ev.stoploss, some .LONG, true⟩
      | .SHORT => ⟨b, decide (j = 0), decide (red_pos = some j), decide (i_pos = some j),
                  false, true, some ev.stoploss, some .SHORT, true⟩
    | none => ⟨b, decide (j = 0), decide (red_pos = some j), decide (i_pos = some j),
               false, false, none, none, false⟩

/-- Process the bars of one trading day (`red_candle.py:86-187`): skip the
opening bar, find the first red candle, find candle I, then run the entry
scan on the remaining bars. -/
def process_day (bars : List Bar) : List SigRow :=
  match bars with
  | [] => []
  | _first :: rest =>
    -- fewer than 4 bars in the day, or fewer than 3 after the opener: no scan
    if bars.length < 4 ∨ rest.length < 3 then decorate bars none none []
    else
      match find_first_red rest with
      | none => decorate bars none none []
      | some rj =>
        let red_pos := rj + 1
        match rest.get? rj with
        | none => decorate bars none none []
        | some r =>
          let after_red := rest.drop (rj + 1)
          match find_candle_i r.high r.low after_red with
          | none => decorate bars (some red_pos) none []
          | some bj =>
            let i_pos := red_pos + 1 + bj
            match after_red.get? bj with
            | none => decorate bars (some red_pos) none []
            | some ci =>
              let tail_pairs := (bars.enum.drop (i_pos + 1)).map fun pb => (pb.1, pb.2.close)
              let entries := (scan_entries ci.high ci.low ci.close false false tail_pairs).1
              decorate bars (some red_pos) (some i_pos) entries

/-- Group the bar series into trading sessions by calendar date
(`df.groupby` over `trading_day`; sessions are contiguous because the input
is in timestamp order). -/
def group_by_day (bars : List Bar) : List (List Bar) :=
  bars.splitBy fun a b => decide (a.day = b.day)

/-- `RedCandleStrategy._apply_red_candle_theory`: every trading day is
processed independently and the decorated rows are reassembled in order. -/
def apply_red_candle_theory (bars : List Bar) : List SigRow :=
  ((group_by_day bars).map process_day).flatten

/-- Per-bar upward moves of the close series as the source computes them:
`delta = close.diff(); gain = delta.where(delta > 0, 0)`.  The recursion
carries the previous close. -/
def gains_aux (prev : ℚ) : List ℚ → List ℚ
  | [] => []
  | c :: rest => (if c - prev > 0 then c - prev else 0) :: gains_aux c rest

/-- The `gain` series of `red_candle.py:197-198`.  The first `diff` value is
`NaN`; `NaN > 0` is false, so `where` replaces it by `0`. -/
def gains (closes : List ℚ) : List ℚ :=
  match closes with
  | [] => []
  | c :: rest => 0 :: gains_aux c rest

/-- Per-bar downward moves: `loss = -delta.where(delta < 0, 0)`. -/
def losses_aux (prev : ℚ) : List ℚ → List ℚ
  | [] => []
  | c :: rest => (if c - prev < 0 then prev - c else 0) :: losses_aux c rest

/-- The `loss` series of `red_candle.py:199` (leading `NaN` becomes `0`). -/
def losses (closes : List ℚ) : List ℚ :=
  match closes with
  | [] => []
  | c :: rest => 0 :: losses_aux c rest

/-- Pandas `Series.rolling(window=n).mean()`: position `i` holds the
arithmetic mean of the last `n` values when at least `n` values exist,
and `NaN` (`none`) otherwise. -/
def rolling_mean (n : ℕ) (l : List ℚ) : List (Option ℚ) :=
  (List.range l.length).map fun i =>
    if n ≤ i + 1 then some ((((l.take (i + 1)).drop (i + 1 - n)).sum) / (n : ℚ)) else none

/-- The `avg_gain` series of `red_candle.py:201`: a plain rolling mean of the
gains. -/
def code_avg_gain (period : ℕ) (closes : List ℚ) : List (Option ℚ) :=
  rolling_mean period (gains closes)

/-- The `avg_loss` series of `red_candle.py:202`. -/
def code_avg_loss (period : ℕ) (closes : List ℚ) : List (Option ℚ) :=
  rolling_mean period (losses closes)

/-- The last entry of the code's `avg_gain` series. -/
def code_avg_gain_last (period : ℕ) (closes : List ℚ) : Option ℚ :=
  ((code_avg_gain period closes).getLast?).join

/-- Modelled from the spec: the recursive step of Wilder-style smoothing,
"previous average times (period−1) plus current value, divided by period",
folded over the remaining per-bar values. -/
def wilder_smooth (period : ℕ) (avg : ℚ) : List ℚ → ℚ
  | [] => avg
  | g :: rest => wilder_smooth period ((avg * ((period : ℚ) - 1) + g) / (period : ℚ)) rest

/-- The true per-bar gains `max(cᵢ − cᵢ₋₁, 0)` (no synthetic leading zero). -/
def per_bar_gains (closes : List ℚ) : List ℚ :=
  match closes with
  | [] => []
  | c :: rest => gains_aux c rest

/-- Modelled from the spec: the Wilder-smoothed average gain at the last bar,
seeded with the arithmetic mean of the first `period` per-bar gains and then
advanced by `wilder_smooth` over the remaining ones.  `none` when fewer than
`period` gains exist. -/
def wilder_avg_gain_last (period : ℕ) (closes : List ℚ) : Option ℚ :=
  let g := per_bar_gains closes
  if 1 ≤ period ∧ period ≤ g.length then
    some (wilder_smooth period (((g.take period).sum) / (period : ℚ)) (g.drop period))
  else none

/-- The `rsi` series of `red_candle.py:204-205` (`rs = avg_gain/avg_loss`;
`rsi = 100 - 100/(1+rs)`).  The float edge cases are made explicit: a zero
average loss with a positive average gain gives `rs = +inf` hence `rsi = 100`,
and `0/0` gives `NaN` (`none`). -/
def rsi_list (period : ℕ) (closes : List ℚ) : List (Option ℚ) :=
  (code_avg_gain period closes).zipWith
    (fun ag al =>
      match ag, al with
      | some g, some l =>
        if l = 0 then (if g = 0 then none else some 100)
        else some (100 - 100 / (1 + g / l))
      | _, _ => none)
    (code_avg_loss period closes)

/-- The `volume_ratio` column of `red_candle.py:208`: bar volume over the
trailing 5-bar average volume (`none` while the window is incomplete; a zero
average, a float-infinity edge irrelevant to the claims, is also mapped to
`none`). -/
def volume_over_avg (vols : List ℚ) : List (Option ℚ) :=
  (vols.zip (rolling_mean 5 vols)).map fun vm =>
    match vm.2 with
    | some m => if m = 0 then none else some (vm.1 / m)
    | none => none

/-- Constructor parameters of `RedCandleStrategy.__init__` with their
defaults (`red_candle.py:18-31`). -/
structure RedCandleParams where
  use_additional_filters : Bool := false
  rsi_period : ℕ := 14
  rsi_threshold : ℚ := 30
  volume_factor : ℚ := 3 / 2

/-- `RedCandleStrategy._apply_additional_filters` (`red_candle.py:194-229`):
mask long entries by `rsi ≤ threshold` and short entries by
`rsi ≥ 100 − threshold`, both additionally gated by the volume filter; a
`NaN` oscillator or volume value fails every comparison.  Only the entry
flags and `entry_signal` change; `stoploss` and `signal_type` are left as
the pattern scan wrote them. -/
def apply_additional_filters (p : RedCandleParams) (rows : List SigRow) : List SigRow :=
  let rsis := rsi_list p.rsi_period (rows.map fun r => r.bar.close)
  let vrs := volume_over_avg (rows.map fun r => r.bar.volume)
  rows.enum.map fun pr =>
    let i := pr.1
    let r := pr.2
    let rsi_i := (rsis.get? i).join
    let vol_ok :=
      match (vrs.get? i).join with
      | some v => decide (v ≥ p.volume_factor)
      | none => false
    let long_ok :=
      match rsi_i with
      | some x => decide (x ≤ p.rsi_threshold)
      | none => false
    let short_ok :=
      match rsi_i with
      | some x => decide (x ≥ 100 - p.rsi_threshold)
      | none => false
    let le := r.long_entry && long_ok && vol_ok
    let se := r.short_entry && short_ok && vol_ok
    { r with long_entry := le, short_entry := se, entry_signal := le || se }

/-- The one detector failure of the error taxonomy: no valid timestamp is
derivable from the input (the source raises `ValueError`). -/
inductive DetectError where
  | malformedInput
deriving DecidableEq

/-- The detector's input: whether the DataFrame has a datetime index, whether
it has a `date` column usable as one, and the bars themselves. -/
structure StratInput where
  indexIsDatetime : Bool
  hasDateColumn : Bool
  bars : List Bar
deriving DecidableEq

/-- `Except.ok`-ness, as a Bool. -/
def except_ok {ε α : Type _} : Except ε α → Bool
  | .ok _ => true
  | .error _ => false

/-- `RedCandleStrategy.generate_signals` (`red_candle.py:33-73`): fail when
neither a datetime index nor a `date` column exists, otherwise decorate the
bars and optionally apply the additional filters. -/
def generate_signals (p : RedCandleParams) (df : StratInput) :
    Except DetectError (List SigRow) :=
  if df.indexIsDatetime = false ∧ df.hasDateColumn = false then
    .error .malformedInput
  else
    let rows := apply_red_candle_theory df.bars
    .ok (if p.use_additional_filters then apply_additional_filters p rows else rows)

/-- A row of the DataFrame handed to `StrategyBacktester.backtest`: the OHLC
fields the simulation reads plus the signal columns.  `ts` is the row's
timestamp in seconds (`entry_date`/`exit_date` arithmetic); `none` renders a
`NaN` cell. -/
structure BTRow where
  ts : ℚ
  close : ℚ
  high : ℚ
  low : ℚ
  entry_signal : Bool
  signal_type : Option SigType
  stoploss : Option ℚ
deriving DecidableEq

/-- One recorded trade dict (`backtester.py:250-267` and `520-538`).
`profit_target_pct` is `none` for the percentage variant, whose trade dicts
do not carry that key. -/
structure Trade where
  entry_date : ℚ
  exit_date : ℚ
  signal_type : SigType
  entry_price : ℚ
  exit_price : ℚ
  stop_loss : ℚ
  profit_target : ℚ
  profit_target_pct : Option ℚ
  exit_type : ExitType
  profit_loss_pct : ℚ
  profit_loss_amount : ℚ
  profit_loss_dollar : ℚ
  contracts : ℕ
  contract_value : ℚ
  max_adverse_excursion : ℚ
  max_favorable_excursion : ℚ
  hold_time : ℚ
deriving DecidableEq

/-- Outcome of the forward exit scan: the exit `(timestamp, price, reason)`
when a stop or target was touched, and the running adverse/favorable
excursions accumulated over the bars scanned before the exit. -/
structure ExitScanResult where
  exit : Option (ℚ × ℚ × ExitType)
  max_excursion : ℚ
  max_favorable : ℚ
deriving DecidableEq

/-- The forward scan over the bars strictly after the entry bar
(`backtester.py:171-223`; the source duplicates this loop verbatim in
`_process_risk_reward`, lines 442-494, so it is embedded once).  The first
bar to touch the stop wins; the stop check precedes the target check, and
the loop breaks before updating the excursions on the exit bar. -/
def scan_exit (signal_type : SigType) (stop_loss target entry_price : ℚ) :
    ℚ → ℚ → List BTRow → ExitScanResult
  | max_excursion, max_favorable, [] => ⟨none, max_excursion, max_favorable⟩
  | max_excursion, max_favorable, r :: rest =>
    match signal_type with
    | .LONG =>
      if r.low ≤ stop_loss then ⟨some (r.ts, stop_loss, .STOP), max_excursion, max_favorable⟩
      else if r.high ≥ target then ⟨some (r.ts, target, .TARGET), max_excursion, max_favorable⟩
      else
        let me1 := if r.low < entry_price then
            max max_excursion ((entry_price - r.low) / entry_price * 100) else max_excursion
        let mf1 := if r.high > entry_price then
            max max_favorable ((r.high - entry_price) / entry_price * 100) else max_favorable
        scan_exit .LONG stop_loss target entry_price me1 mf1 rest
    | .SHORT =>
      if r.high ≥ stop_loss then ⟨some (r.ts, stop_loss, .STOP), max_excursion, max_favorable⟩
      else if r.low ≤ target then ⟨some (r.ts, target, .TARGET), max_excursion, max_favorable⟩
      else
        let me1 := if r.high > entry_price then
            max max_excursion ((r.high - entry_price) / entry_price * 100) else max_excursion
        let mf1 := if r.low < entry_price then
            max max_favorable ((entry_price - r.low) / entry_price * 100) else max_favorable
        scan_exit .SHORT stop_loss target entry_price me1 mf1 rest

/-- Build the trade dict for one entry row given its profit-target price
(`backtester.py:159-267`, duplicated at `430-538`): run the exit scan, fall
back to a synthetic close at the last bar (`OPEN`) when nothing triggered,
then compute the percentage and dollar P&L. -/
def build_trade (df : List BTRow) (idx : ℕ) (row : BTRow) (signal_type : SigType)
    (stop_loss target : ℚ) (target_pct : Option ℚ)
    (commission slippage position_size : ℚ) (contracts : ℕ) (contract_value : ℚ) : Trade :=
  let entry_price := row.close
  let scan := scan_exit signal_type stop_loss target entry_price 0 0 (df.drop (idx + 1))
  let ex : ℚ × ℚ × ExitType :=
    match scan.exit with
    | some e => e
    | none => (((df.getLast?).map fun b => b.ts).getD row.ts,
               (((df.getLast?).map fun b => b.close).getD row.close, ExitType.OPEN))
  let exit_date := ex.1
  let exit_price := ex.2.1
  let exit_type := ex.2.2
  let trade_pl_pct :=
    match signal_type with
    | .LONG => (exit_price - entry_price) / entry_price * 100 - commission - slippage
    | .SHORT => (entry_price - exit_price) / entry_price * 100 - commission - slippage
  let total_dollar_value := |exit_price - entry_price| * contract_value * (contracts : ℚ)
  -- positive when the price moved in the trade's favor, negative otherwise
  let dollar_pl :=
    match signal_type with
    | .LONG => if exit_price > entry_price then total_dollar_value else -total_dollar_value
    | .SHORT => if exit_price < entry_price then total_dollar_value else -total_dollar_value
  { entry_date := row.ts
    exit_date := exit_date
    signal_type := signal_type
    entry_price := entry_price
    exit_price := exit_price
    stop_loss := stop_loss
    profit_target := target
    profit_target_pct := target_pct
    exit_type := exit_type
    profit_loss_pct := trade_pl_pct
    profit_loss_amount := trade_pl_pct * position_size / 100
    profit_loss_dollar := dollar_pl
    contracts := contracts
    contract_value := contract_value
    max_adverse_excursion := scan.max_excursion
    max_favorable_excursion := scan.max_favorable
    hold_time := (exit_date - row.ts) / 86400 }

/-- One entry row of the percentage-target variant: skipped (`none`) when the
`signal_type` or `stoploss` cell is missing (`backtester.py:144-145`),
otherwise simulated against the target `entry * (1 ± pct/100)`. -/
def process_trade_pt (df : List BTRow) (idx : ℕ) (row : BTRow)
    (profit_target commission slippage position_size : ℚ)
    (contracts : ℕ) (contract_value : ℚ) : Option Trade :=
  match row.signal_type, row.stoploss with
  | some st, some sl =>
    let entry_price := row.close
    let target :=
      match st with
      | .LONG => entry_price * (1 + profit_target / 100)
      | .SHORT => entry_price * (1 - profit_target / 100)
    some (build_trade df idx row st sl target none
      commission slippage position_size contracts contract_value)
  | _, _ => none

/-- One entry row of the risk-reward variant (`backtester.py:413-428`):
target `entry ± risk * ratio` where `risk = |entry − stop|` by direction. -/
def process_trade_rr (df : List BTRow) (idx : ℕ) (row : BTRow)
    (rr_mult commission slippage position_size : ℚ)
    (contracts : ℕ) (contract_value : ℚ) : Option Trade :=
  match row.signal_type, row.stoploss with
  | some st, some sl =>
    let entry_price := row.close
    let target :=
      match st with
      | .LONG => entry_price + (entry_price - sl) * rr_mult
      | .SHORT => entry_price - (sl - entry_price) * rr_mult
    let target_pct :=
      match st with
      | .LONG => (target - entry_price) / entry_price * 100
      | .SHORT => (entry_price - target) / entry_price * 100
    some (build_trade df idx row st sl target (some target_pct)
      commission slippage position_size contracts contract_value)
  | _, _ => none

/-- Trades with a strictly positive percentage P&L (`backtester.py:274`). -/
def winning_count (ts : List Trade) : ℕ :=
  (ts.filter fun t => decide (t.profit_loss_pct > 0)).length

/-- Trades whose percentage P&L is zero or negative (`backtester.py:277`). -/
def losing_count (ts : List Trade) : ℕ :=
  (ts.filter fun t => decide (¬t.profit_loss_pct > 0)).length

/-- Sum of `profit_loss_amount` over the winning trades (`total_win_profit`). -/
def total_win_profit (ts : List Trade) : ℚ :=
  ((ts.filter fun t => decide (t.profit_loss_pct > 0)).map (·.profit_loss_amount)).sum

/-- Sum of `|profit_loss_amount|` over the non-winning trades (`total_loss`). -/
def total_loss (ts : List Trade) : ℚ :=
  ((ts.filter fun t => decide (¬t.profit_loss_pct > 0)).map
    fun t => |t.profit_loss_amount|).sum

/-- Sum of `profit_loss_amount` over all trades (`total_profit`). -/
def total_profit (ts : List Trade) : ℚ :=
  (ts.map (·.profit_loss_amount)).sum

/-- Trades with a strictly positive dollar P&L (`backtester.py:282`). -/
def winning_count_dollar (ts : List Trade) : ℕ :=
  (ts.filter fun t => decide (t.profit_loss_dollar > 0)).length

/-- Trades whose dollar P&L is zero or negative (`backtester.py:284`). -/
def losing_count_dollar (ts : List Trade) : ℕ :=
  (ts.filter fun t => decide (¬t.profit_loss_dollar > 0)).length

/-- `total_dollar_profit` (`backtester.py:306`): dollar P&L summed over the
trades with strictly positive dollar P&L. -/
def total_dollar_profit (ts : List Trade) : ℚ :=
  ((ts.filter fun t => decide (t.profit_loss_dollar > 0)).map (·.profit_loss_dollar)).sum

/-- `total_dollar_loss` (`backtester.py:307`): absolute dollar P&L summed over
the trades with strictly negative dollar P&L. -/
def total_dollar_loss (ts : List Trade) : ℚ :=
  ((ts.filter fun t => decide (t.profit_loss_dollar < 0)).map
    fun t => |t.profit_loss_dollar|).sum

/-- `total_dollar_return` (`backtester.py:308`). -/
def total_dollar_return (ts : List Trade) : ℚ :=
  (ts.map (·.profit_loss_dollar)).sum

/-- Insert a trade into a list sorted by `entry_date`. -/
def insert_trade (t : Trade) : List Trade → List Trade
  | [] => [t]
  | h :: rest =>
    if t.entry_date < h.entry_date then t :: h :: rest else h :: insert_trade t rest

/-- `sorted(trades, key=lambda x: x['entry_date'])` (`backtester.py:294`),
rendered as an insertion sort (the produced entry dates are distinct, so any
sort agrees with Python's). -/
def sort_trades : List Trade → List Trade
  | [] => []
  | t :: rest => insert_trade t (sort_trades rest)

/-- The running state of the equity-curve fold (`backtester.py:288-291`). -/
structure DDState where
  max_drawdown : ℚ
  max_drawdown_pct : ℚ
  peak_equity : ℚ
  current_equity : ℚ
deriving DecidableEq

/-- One step of the equity/drawdown loop (`backtester.py:297-303`): add the
trade's dollar P&L to the equity, raise the peak, and record the drawdown in
dollars and as a fraction of the current peak. -/
def dd_step (s : DDState) (t : Trade) : DDState :=
  let current := s.current_equity + t.profit_loss_dollar
  let peak := max s.peak_equity current
  let drawdown := peak - current
  let drawdown_pct := if peak > 0 then drawdown / peak else 0
  ⟨max s.max_drawdown drawdown, max s.max_drawdown_pct drawdown_pct, peak, current⟩

/-- The whole equity-curve fold from zero state (the source runs this block
twice, lines 287-303 and 310-326, with identical results). -/
def dd_fold (ts : List Trade) : DDState :=
  ts.foldl dd_step ⟨0, 0, 0, 0⟩

/-- Dollar P&L accumulated over the first `k` trades of a list: the running
equity of the fold after `k` steps. -/
def prefix_equity (ts : List Trade) (k : ℕ) : ℚ :=
  ((ts.take k).map (·.profit_loss_dollar)).sum

/-- The results dict of `_process_profit_target` (`backtester.py:110-127`
initialisation plus the updates of lines 333-355).  Fields that only appear
when trades were processed default to `0`/`finite 0`. -/
structure PTResults where
  profit_target : ℚ
  total_trades : ℕ
  winning_trades : ℕ
  losing_trades : ℕ
  winning_trades_dollar : ℕ
  losing_trades_dollar : ℕ
  win_rate : ℚ
  win_rate_dollar : ℚ
  avg_profit : ℚ
  avg_loss : ℚ
  profit_factor : PyFloat
  total_return : ℚ
  total_return_pct : ℚ
  max_drawdown : ℚ
  max_drawdown_pct : ℚ
  trades : List Trade
  total_dollar_return : ℚ
  total_dollar_profit : ℚ
  total_dollar_loss : ℚ
  avg_dollar_profit : ℚ
  avg_dollar_loss : ℚ
  profit_factor_dollar : PyFloat
deriving DecidableEq

/-- The initial results dict (`backtester.py:110-127`), returned unchanged
when the DataFrame carries no entry signals. -/
def init_pt_results (profit_target : ℚ) : PTResults :=
  ⟨profit_target, 0, 0, 0, 0, 0, 0, 0, 0, 0, .finite 0, 0, 0, 0, 0, [], 0, 0, 0, 0, 0, .finite 0⟩

/-- The final results dict of `_process_profit_target` when at least one
entry signal exists (`backtester.py:333-355`), as a function of the processed
trades and the entry-signal count. -/
def pt_results_of (profit_target position_size : ℚ) (total_trades : ℕ)
    (trades : List Trade) : PTResults :=
  let dd := dd_fold (sort_trades trades)
  let wins := winning_count trades
  let losses := losing_count trades
  let winsd := winning_count_dollar trades
  let lossesd := losing_count_dollar trades
  let twp := total_win_profit trades
  let tl := total_loss trades
  let tdp := total_dollar_profit trades
  let tdl := total_dollar_loss trades
  { profit_target := profit_target
    total_trades := total_trades
    winning_trades := wins
    losing_trades := losses
    winning_trades_dollar := winsd
    losing_trades_dollar := lossesd
    win_rate := if total_trades > 0 then (wins : ℚ) / (total_trades : ℚ) else 0
    win_rate_dollar := if total_trades > 0 then (winsd : ℚ) / (total_trades : ℚ) else 0
    avg_profit := if wins > 0 then twp / (wins : ℚ) else 0
    avg_loss := if losses > 0 then tl / (losses : ℚ) else 0
    profit_factor := if tl > 0 then .finite (twp / tl) else .posInf
    total_return := total_profit trades
    total_return_pct := if position_size > 0 then total_profit trades * 100 else 0
    max_drawdown := dd.max_drawdown
    max_drawdown_pct := dd.max_drawdown_pct * 100
    trades := trades
    total_dollar_return := total_dollar_return trades
    total_dollar_profit := tdp
    total_dollar_loss := tdl
    avg_dollar_profit := if winsd > 0 then tdp / (winsd : ℚ) else 0
    avg_dollar_loss := if lossesd > 0 then tdl / (lossesd : ℚ) else 0
    profit_factor_dollar := if tdl > 0 then .finite (tdp / tdl) else .posInf }

/-- The rows carrying an entry signal, with their positions
(`df[df['entry_signal']]`, `backtester.py:130`). -/
def entry_rows (df : List BTRow) : List (ℕ × BTRow) :=
  df.enum.filter fun pr => pr.2.entry_signal

/-- The trades produced by the percentage-target variant: one per entry row
whose `signal_type` and `stoploss` are present. -/
def trades_pt (df : List BTRow) (profit_target commission slippage position_size : ℚ)
    (contracts : ℕ) (contract_value : ℚ) : List Trade :=
  (entry_rows df).filterMap fun pr =>
    process_trade_pt df pr.1 pr.2 profit_target commission slippage position_size
      contracts contract_value

/-- `StrategyBacktester._process_profit_target` (`backtester.py:93-360`). -/
def process_profit_target (df : List BTRow)
    (profit_target commission slippage position_size : ℚ)
    (contracts : ℕ) (contract_value : ℚ) : PTResults :=
  if (entry_rows df).length = 0 then init_pt_results profit_target
  else
    pt_results_of profit_target position_size (entry_rows df).length
      (trades_pt df profit_target commission slippage position_size contracts contract_value)

/-- The results dict of `_process_risk_reward` (`backtester.py:379-396`
initialisation plus the updates of lines 552-558).  Unlike the
percentage-target variant, this method never updates the dollar-basis
counters, `total_return_pct`, or the drawdown fields, so they keep their
initial zero values.  Its key `risk_reward_ratio` is rendered `risk_reward`. -/
structure RRResults where
  risk_reward : ℚ
  total_trades : ℕ
  winning_trades : ℕ
  losing_trades : ℕ
  winning_trades_dollar : ℕ
  losing_trades_dollar : ℕ
  win_rate : ℚ
  win_rate_dollar : ℚ
  avg_profit : ℚ
  avg_loss : ℚ
  profit_factor : PyFloat
  total_return : ℚ
  total_return_pct : ℚ
  max_drawdown : ℚ
  max_drawdown_pct : ℚ
  trades : List Trade
deriving DecidableEq

/-- The initial risk-reward results dict (`backtester.py:379-396`). -/
def init_rr_results (rr_mult : ℚ) : RRResults :=
  ⟨rr_mult, 0, 0, 0, 0, 0, 0, 0, 0, 0, .finite 0, 0, 0, 0, 0, []⟩

/-- The trades produced by the risk-reward variant. -/
def trades_rr (df : List BTRow) (rr_mult commission slippage position_size : ℚ)
    (contracts : ℕ) (contract_value : ℚ) : List Trade :=
  (entry_rows df).filterMap fun pr =>
    process_trade_rr df pr.1 pr.2 rr_mult commission slippage position_size
      contracts contract_value

/-- The final risk-reward results (`backtester.py:552-558`): only `trades`,
`win_rate`, `avg_profit`, `avg_loss`, `profit_factor` and `total_return` are
written; every other field stays at its initial zero. -/
def rr_results_of (rr_mult : ℚ) (total_trades : ℕ) (trades : List Trade) : RRResults :=
  let wins := winning_count trades
  let losses := losing_count trades
  let twp := total_win_profit trades
  let tl := total_loss trades
  { risk_reward := rr_mult
    total_trades := total_trades
    winning_trades := wins
    losing_trades := losses
    winning_trades_dollar := 0
    losing_trades_dollar := 0
    win_rate := if total_trades > 0 then (wins : ℚ) / (total_trades : ℚ) else 0
    win_rate_dollar := 0
    avg_profit := if wins > 0 then twp / (wins : ℚ) else 0
    avg_loss := if losses > 0 then tl / (losses : ℚ) else 0
    profit_factor := if tl > 0 then .finite (twp / tl) else .posInf
    total_return := total_profit trades
    total_return_pct := 0
    max_drawdown := 0
    max_drawdown_pct := 0
    trades := trades }

/-- `StrategyBacktester._process_risk_reward` (`backtester.py:362-563`). -/
def process_risk_reward (df : List BTRow)
    (rr_mult commission slippage position_size : ℚ)
    (contracts : ℕ) (contract_value : ℚ) : RRResults :=
  if (entry_rows df).length = 0 then init_rr_results rr_mult
  else
    rr_results_of rr_mult (entry_rows df).length
      (trades_rr df rr_mult commission slippage position_size contracts contract_value)

/-- The errors `StrategyBacktester.backtest` can raise: the `ValueError` for
missing required columns (`backtester.py:51-52`), and the `AttributeError`
Python raises at line 76 because the method `_process_dollar_target` invoked
for the dollar variant is not defined anywhere in the repository. -/
inductive BTError where
  | missingColumns
  | noMethodDollarTarget
deriving DecidableEq

/-- Key of one results aggregate in the returned dict
(`Target_{t}%` / `RR_1:{r}` / `${d}`). -/
inductive ResultKey where
  | target (t : ℚ)
  | rr (r : ℚ)
  | dollar (d : ℚ)
deriving DecidableEq

/-- One results aggregate of either implemented variant. -/
inductive ResultVal where
  | pt (r : PTResults)
  | rrv (r : RRResults)
deriving DecidableEq

/-- The backtester's input: the presence flags of the three required columns
(`backtester.py:49-52`) and the rows. -/
structure BacktestInput where
  hasEntrySignalCol : Bool := true
  hasSignalTypeCol : Bool := true
  hasStoplossCol : Bool := true
  rows : List BTRow
deriving DecidableEq

/-- `StrategyBacktester.backtest` (`backtester.py:25-81`): check the required
columns, default the percentage targets to `[5, 10, 15]` when no variant was
requested, then run one aggregate per requested value.  A non-empty dollar
list reaches the call of the missing `_process_dollar_target` method, which
raises. -/
def backtest (input : BacktestInput)
    (profit_targets risk_reward_list profit_targets_dollar : Option (List ℚ))
    (commission slippage position_size : ℚ) (contracts : ℕ) (contract_value : ℚ) :
    Except BTError (List (ResultKey × ResultVal)) :=
  if input.hasEntrySignalCol = false ∨ input.hasSignalTypeCol = false
      ∨ input.hasStoplossCol = false then
    .error .missingColumns
  else
    let pts :=
      if profit_targets.isNone ∧ risk_reward_list.isNone ∧ profit_targets_dollar.isNone
      then some [5, 10, 15] else profit_targets
    let r1 :=
      match pts with
      | some l => l.map fun t =>
          (ResultKey.target t,
           ResultVal.pt (process_profit_target input.rows t commission slippage
             position_size contracts contract_value))
      | none => []
    let r2 :=
      match risk_reward_list with
      | some l => l.map fun r =>
          (ResultKey.rr r,
           ResultVal.rrv (process_risk_reward input.rows r commission slippage
             position_size contracts contract_value))
      | none => []
    match profit_targets_dollar with
    | some (_ :: _) => .error .noMethodDollarTarget
    | _ => .ok (r1 ++ r2)

/-! ### Concrete inputs used by counterexamples and witnesses -/

/-- Two LONG entries: the first hits its 5% target (row 1), the second is
stopped out (row 3).  Dollar P&L with `contract_value = 1`, `contracts = 1`
is `+5` then `-20`, so the equity curve peaks at `5` and then falls to
`-15`. -/
def df_drawdown : List BTRow :=
  [⟨0, 100, 100, 100, true, some .LONG, some 95⟩,
   ⟨86400, 105, 106, 100, false, none, none⟩,
   ⟨172800, 100, 100, 100, true, some .LONG, some 80⟩,
   ⟨259200, 85, 100, 79, false, none, none⟩]

/-- One LONG entry that hits its target: one winning trade, no losing one. -/
def df_one_winner : List BTRow :=
  [⟨0, 100, 100, 100, true, some .LONG, some 95⟩,
   ⟨86400, 105, 106, 100, false, none, none⟩]

/-- Two rows flagged as entries whose `signal_type` or `stoploss` cell is
missing: both are skipped by the trade loop. -/
def df_all_skipped : List BTRow :=
  [⟨0, 100, 100, 100, true, none, some 95⟩,
   ⟨86400, 100, 100, 100, true, some .LONG, none⟩]

/-- A backtest input with the required columns and a single LONG entry row. -/
def input_one_long : BacktestInput :=
  { rows := [⟨0, 100, 100, 100, true, some .LONG, some 95⟩] }

/-- A close series whose only upward move happens at the second bar: the
14-bar rolling mean of the gains at the last bar is `0`, while Wilder
smoothing still remembers the old gain. -/
def closes_flat : List ℚ :=
  [0, 14, 14, 14, 14, 14, 14, 14, 14, 14, 14, 14, 14, 14, 14, 14]

/-! ### Helper lemmas: sorting, prefix equity, the drawdown fold -/

theorem insert_trade_perm (t : Trade) (l : List Trade) :
    List.Perm (insert_trade t l) (t :: l) := by
  induction l with
  | nil => exact List.Perm.refl _
  | cons hd rest ih =>
    simp only [insert_trade]
    split
    · exact List.Perm.refl _
    · exact (ih.cons hd).trans (List.Perm.swap t hd rest)

theorem sort_trades_perm (l : List Trade) : List.Perm (sort_trades l) l := by
  induction l with
  | nil => exact List.Perm.refl _
  | cons t rest ih => exact (insert_trade_perm t (sort_trades rest)).trans (ih.cons t)

theorem mem_insert_trade {x t : Trade} {l : List Trade} :
    x ∈ insert_trade t l ↔ x = t ∨ x ∈ l := by
  rw [(insert_trade_perm t l).mem_iff]
  simp

theorem sorted_insert_trade (t : Trade) (l : List Trade)
    (h : List.Sorted (fun a b : Trade => a.entry_date ≤ b.entry_date) l) :
    List.Sorted (fun a b : Trade => a.entry_date ≤ b.entry_date) (insert_trade t l) := by
  induction l with
  | nil => simp [insert_trade]
  | cons hd rest ih =>
    rw [List.sorted_cons] at h
    simp only [insert_trade]
    split
    · rename_i hlt
      rw [List.sorted_cons]
      refine ⟨?_, List.sorted_cons.mpr h⟩
      intro b hb
      rcases List.mem_cons.mp hb with rfl | hbr
      · exact le_of_lt hlt
      · exact le_trans (le_of_lt hlt) (h.1 b hbr)
    · rename_i hge
      rw [List.sorted_cons]
      refine ⟨?_, ih h.2⟩
      intro b hb
      rcases mem_insert_trade.mp hb with rfl | hbr
      · exact le_of_not_lt hge
      · exact h.1 b hbr

theorem sort_trades_sorted (l : List Trade) :
    List.Sorted (fun a b : Trade => a.entry_date ≤ b.entry_date) (sort_trades l) := by
  induction l with
  | nil => simp [sort_trades]
  | cons t rest ih => exact sorted_insert_trade t (sort_trades rest) ih

theorem prefix_equity_zero (ts : List Trade) : prefix_equity ts 0 = 0 := by
  simp [prefix_equity]

theorem prefix_equity_cons (t : Trade) (ts : List Trade) (k : ℕ) :
    prefix_equity (t :: ts) (k + 1) = t.profit_loss_dollar + prefix_equity ts k := by
  simp [prefix_equity]

theorem prefix_equity_nonneg (ts : List Trade) (k : ℕ)
    (h : ∀ t ∈ ts, 0 ≤ t.profit_loss_dollar) : 0 ≤ prefix_equity ts k := by
  unfold prefix_equity
  refine List.sum_nonneg ?_
  intro x hx
  obtain ⟨t, ht, rfl⟩ := List.mem_map.mp hx
  exact h t (List.mem_of_mem_take ht)

theorem dd_foldl_nonneg (ts : List Trade) (s : DDState)
    (h1 : 0 ≤ s.max_drawdown) (h2 : 0 ≤ s.max_drawdown_pct) :
    0 ≤ (ts.foldl dd_step s).max_drawdown ∧ 0 ≤ (ts.foldl dd_step s).max_drawdown_pct := by
  induction ts generalizing s with
  | nil => exact ⟨h1, h2⟩
  | cons t rest ih =>
    simp only [List.foldl_cons]
    refine ih (dd_step s t) ?_ ?_
    · simp only [dd_step]
      exact le_trans h1 (le_max_left _ _)
    · simp only [dd_step]
      exact le_trans h2 (le_max_left _ _)

theorem dd_foldl_bounded (ts : List Trade) (s : DDState)
    (h1 : s.max_drawdown_pct ≤ 1) (h2 : s.max_drawdown ≤ s.peak_equity)
    (h3 : 0 ≤ s.peak_equity)
    (hpre : ∀ k, k ≤ ts.length → 0 ≤ s.current_equity + prefix_equity ts k) :
    (ts.foldl dd_step s).max_drawdown_pct ≤ 1
    ∧ (ts.foldl dd_step s).max_drawdown ≤ (ts.foldl dd_step s).peak_equity := by
  induction ts generalizing s with
  | nil => exact ⟨h1, h2⟩
  | cons t rest ih =>
    simp only [List.foldl_cons]
    have hcur : 0 ≤ s.current_equity + t.profit_loss_dollar := by
      have h := hpre 1 (by simp)
      rwa [prefix_equity_cons, prefix_equity_zero, add_zero] at h
    have hpk : 0 ≤ max s.peak_equity (s.current_equity + t.profit_loss_dollar) :=
      le_trans h3 (le_max_left _ _)
    have hcp : s.current_equity + t.profit_loss_dollar
        ≤ max s.peak_equity (s.current_equity + t.profit_loss_dollar) := le_max_right _ _
    have hdd_le : max s.peak_equity (s.current_equity + t.profit_loss_dollar)
        - (s.current_equity + t.profit_loss_dollar)
        ≤ max s.peak_equity (s.current_equity + t.profit_loss_dollar) := by linarith
    refine ih (dd_step s t) ?_ ?_ ?_ ?_
    · simp only [dd_step]
      refine max_le h1 ?_
      split
      · rename_i hpos
        exact (div_le_one hpos).mpr hdd_le
      · norm_num
    · simp only [dd_step]
      exact max_le (le_trans h2 (le_max_left _ _)) hdd_le
    · simp only [dd_step]
      exact hpk
    · simp only [dd_step]
      intro k hk
      have h := hpre (k + 1) (by simpa using hk)
      rw [prefix_equity_cons] at h
      linarith

theorem dd_foldl_current (ts : List Trade) (s : DDState) :
    (ts.foldl dd_step s).current_equity
      = s.current_equity + (ts.map (·.profit_loss_dollar)).sum := by
  induction ts generalizing s with
  | nil => simp
  | cons t rest ih =>
    simp only [List.foldl_cons, List.map_cons, List.sum_cons]
    rw [ih]
    simp only [dd_step]
    ring

theorem process_profit_target_dd_eq (df : List BTRow) (pt c sl ps : ℚ) (n : ℕ) (cv : ℚ) :
    (process_profit_target df pt c sl ps n cv).max_drawdown
        = (dd_fold (sort_trades (process_profit_target df pt c sl ps n cv).trades)).max_drawdown
    ∧ (process_profit_target df pt c sl ps n cv).max_drawdown_pct
        = (dd_fold (sort_trades (process_profit_target df pt c sl ps n cv).trades)).max_drawdown_pct
          * 100 := by
  unfold process_profit_target
  split
  · simp [init_pt_results, sort_trades, dd_fold]
  · exact ⟨rfl, rfl⟩

theorem process_risk_reward_dd_zero (df : List BTRow) (rm c sl ps : ℚ) (n : ℕ) (cv : ℚ) :
    (process_risk_reward df rm c sl ps n cv).max_drawdown = 0
    ∧ (process_risk_reward df rm c sl ps n cv).max_drawdown_pct = 0 := by
  unfold process_risk_reward
  split
  · exact ⟨rfl, rfl⟩
  · exact ⟨rfl, rfl⟩

/-! ### C2 -/

/-- C2, corrected.  The claim as stated is false: when the running equity goes
negative after a positive peak, the recorded drawdown exceeds the peak and the
percentage exceeds 100 (see `C2_counterexample`).  Amended claim: the reported
`max_drawdown` and `max_drawdown_pct` of a percentage-target run are always
≥ 0, and under the additional assumption that the running equity of the
entry-time-sorted trade list never goes negative, `max_drawdown_pct ≤ 100`
and the dollar `max_drawdown` never exceeds the fold's peak equity. -/
theorem C2_drawdown_bounds (df : List BTRow) (pt c sl ps : ℚ) (n : ℕ) (cv : ℚ) :
    0 ≤ (process_profit_target df pt c sl ps n cv).max_drawdown
    ∧ 0 ≤ (process_profit_target df pt c sl ps n cv).max_drawdown_pct
    ∧ ((∀ k, k ≤ (sort_trades (process_profit_target df pt c sl ps n cv).trades).length →
          0 ≤ prefix_equity (sort_trades (process_profit_target df pt c sl ps n cv).trades) k) →
        (process_profit_target df pt c sl ps n cv).max_drawdown_pct ≤ 100
        ∧ (process_profit_target df pt c sl ps n cv).max_drawdown
            ≤ (dd_fold (sort_trades
                (process_profit_target df pt c sl ps n cv).trades)).peak_equity) := by
  obtain ⟨e1, e2⟩ := process_profit_target_dd_eq df pt c sl ps n cv
  have hn := dd_foldl_nonneg
    (sort_trades (process_profit_target df pt c sl ps n cv).trades) ⟨0, 0, 0, 0⟩ le_rfl le_rfl
  refine ⟨?_, ?_, ?_⟩
  · rw [e1]
    unfold dd_fold
    exact hn.1
  · rw [e2]
    unfold dd_fold
    exact mul_nonneg hn.2 (by norm_num)
  · intro hpre
    have hb := dd_foldl_bounded
      (sort_trades (process_profit_target df pt c sl ps n cv).trades) ⟨0, 0, 0, 0⟩
      (by norm_num) le_rfl le_rfl (by simpa using hpre)
    refine ⟨?_, ?_⟩
    · rw [e2]
      unfold dd_fold
      have h := hb.1
      linarith
    · rw [e1]
      unfold dd_fold
      exact hb.2

/-- C2, counterexample to the claim as stated: on `df_drawdown` the reported
`max_drawdown_pct` is 400 (not ≤ 100), and the reported dollar `max_drawdown`
of 20 exceeds the 5-dollar peak equity at which it was recorded. -/
theorem C2_counterexample :
    (process_profit_target df_drawdown 5 0 0 1 1 1).max_drawdown_pct = 400
    ∧ ¬(process_profit_target df_drawdown 5 0 0 1 1 1).max_drawdown_pct ≤ 100
    ∧ (process_profit_target df_drawdown 5 0 0 1 1 1).max_drawdown = 20
    ∧ (dd_fold (sort_trades (process_profit_target df_drawdown 5 0 0 1 1 1).trades)).peak_equity
        = 5 := by
  norm_num [df_drawdown, process_profit_target, entry_rows, trades_pt, pt_results_of,
    init_pt_results, process_trade_pt, build_trade, scan_exit, sort_trades, insert_trade,
    dd_fold, dd_step, winning_count, losing_count, winning_count_dollar, losing_count_dollar,
    total_win_profit, total_loss, total_profit, total_dollar_profit, total_dollar_loss,
    total_dollar_return, List.enum, List.enumFrom, List.filter, List.filterMap,
    List.foldl, List.map, List.sum, List.drop, List.getLast?, max_def, abs]

/-- Witness for `C2_drawdown_bounds` at `df_one_winner`, whose single trade
keeps the running equity non-negative. -/
theorem C2_drawdown_bounds_witness :
    (process_profit_target df_one_winner 5 0 0 1 1 1).max_drawdown_pct ≤ 100
    ∧ (process_profit_target df_one_winner 5 0 0 1 1 1).max_drawdown
        ≤ (dd_fold (sort_trades
            (process_profit_target df_one_winner 5 0 0 1 1 1).trades)).peak_equity :=
  (C2_drawdown_bounds df_one_winner 5 0 0 1 1 1).2.2 (by
    intro k _hk
    refine prefix_equity_nonneg _ k ?_
    intro t ht
    have h : sort_trades (process_profit_target df_one_winner 5 0 0 1 1 1).trades
        = (process_profit_target df_one_winner 5 0 0 1 1 1).trades := by
      norm_num [df_one_winner, process_profit_target, entry_rows, trades_pt, pt_results_of,
        process_trade_pt, build_trade, scan_exit, sort_trades, insert_trade,
        List.enum, List.enumFrom, List.filter, List.filterMap, List.map, List.drop,
        List.getLast?, max_def, abs]
    rw [h] at ht
    norm_num [df_one_winner, process_profit_target, entry_rows, trades_pt, pt_results_of,
      process_trade_pt, build_trade, scan_exit, List.enum, List.enumFrom, List.filter,
      List.filterMap, List.map, List.drop, List.getLast?, max_def, abs] at ht
    rw [ht]
    norm_num)

/-! ### C3 -/

/-- C3, corrected.  The claim as stated is false: only the percentage-target
variant performs the equity fold; `_process_risk_reward` never touches its
drawdown fields, which stay 0 whatever the trades are (see
`C3_counterexample`), and the dollar variant is not implemented at all (see
`C1_dollar_variant_raises`).  Amended claim: the percentage-target variant
folds its trades sorted by entry time (a sorted permutation of the reported
trade list) into a running equity equal to the cumulative dollar P&L and
reports `max_drawdown` and `max_drawdown_pct` as the two maxima tracked
separately by that fold, while the risk-reward variant always reports both
drawdown fields as 0. -/
theorem C3_fold_only_in_percentage_variant (df : List BTRow) (pt rm c sl ps : ℚ)
    (n : ℕ) (cv : ℚ) :
    ((process_profit_target df pt c sl ps n cv).max_drawdown
        = (dd_fold (sort_trades (process_profit_target df pt c sl ps n cv).trades)).max_drawdown
      ∧ (process_profit_target df pt c sl ps n cv).max_drawdown_pct
        = (dd_fold (sort_trades
            (process_profit_target df pt c sl ps n cv).trades)).max_drawdown_pct * 100
      ∧ List.Sorted (fun a b : Trade => a.entry_date ≤ b.entry_date)
          (sort_trades (process_profit_target df pt c sl ps n cv).trades)
      ∧ List.Perm (sort_trades (process_profit_target df pt c sl ps n cv).trades)
          (process_profit_target df pt c sl ps n cv).trades
      ∧ (dd_fold (sort_trades (process_profit_target df pt c sl ps n cv).trades)).current_equity
        = ((sort_trades (process_profit_target df pt c sl ps n cv).trades).map
            (·.profit_loss_dollar)).sum)
    ∧ ((process_risk_reward df rm c sl ps n cv).max_drawdown = 0
      ∧ (process_risk_reward df rm c sl ps n cv).max_drawdown_pct = 0) := by
  obtain ⟨e1, e2⟩ := process_profit_target_dd_eq df pt c sl ps n cv
  refine ⟨⟨e1, e2, sort_trades_sorted _, sort_trades_perm _, ?_⟩,
    process_risk_reward_dd_zero df rm c sl ps n cv⟩
  unfold dd_fold
  rw [dd_foldl_current]
  simp

/-- C3, counterexample to the claim as stated: on `df_drawdown` with
risk-reward ratio 1 the trades show a +5 then a −20 dollar P&L, so the fold's
maximum drawdown is 20, yet the risk-reward aggregate reports
`max_drawdown = 0`. -/
theorem C3_counterexample :
    (process_risk_reward df_drawdown 1 0 0 1 1 1).max_drawdown = 0
    ∧ (dd_fold (sort_trades (process_risk_reward df_drawdown 1 0 0 1 1 1).trades)).max_drawdown
        = 20
    ∧ (process_risk_reward df_drawdown 1 0 0 1 1 1).max_drawdown
        ≠ (dd_fold (sort_trades
            (process_risk_reward df_drawdown 1 0 0 1 1 1).trades)).max_drawdown := by
  norm_num [df_drawdown, process_risk_reward, entry_rows, trades_rr, rr_results_of,
    init_rr_results, process_trade_rr, build_trade, scan_exit, sort_trades, insert_trade,
    dd_fold, dd_step, winning_count, losing_count, total_win_profit, total_loss,
    total_profit, List.enum, List.enumFrom, List.filter, List.filterMap,
    List.foldl, List.map, List.sum, List.drop, List.getLast?, max_def, abs]

/-! ### C7 -/

theorem total_loss_eq_zero_of_no_losers (ts : List Trade) (h : losing_count ts = 0) :
    total_loss ts = 0 := by
  unfold losing_count at h
  rw [List.length_eq_zero] at h
  unfold total_loss
  rw [h]
  simp

/-- C7, confirmed: in both implemented variants, a run with at least one
winning trade and no losing trade reports the explicit `+inf` profit-factor
sentinel (`float('inf')`, `backtester.py:339` and `557`), not a finite value
and not `NaN`. -/
theorem C7_profit_factor_posInf (df : List BTRow) (pt rm c sl ps : ℚ) (n : ℕ) (cv : ℚ)
    (h1 : 1 ≤ (process_profit_target df pt c sl ps n cv).winning_trades)
    (h2 : (process_profit_target df pt c sl ps n cv).losing_trades = 0)
    (h3 : 1 ≤ (process_risk_reward df rm c sl ps n cv).winning_trades)
    (h4 : (process_risk_reward df rm c sl ps n cv).losing_trades = 0) :
    (process_profit_target df pt c sl ps n cv).profit_factor = PyFloat.posInf
    ∧ (process_risk_reward df rm c sl ps n cv).profit_factor = PyFloat.posInf := by
  constructor
  · by_cases hc : (entry_rows df).length = 0
    · rw [process_profit_target, if_pos hc] at h1
      simp [init_pt_results] at h1
    · rw [process_profit_target, if_neg hc] at h2 ⊢
      have hz := total_loss_eq_zero_of_no_losers _ h2
      show (if total_loss _ > 0 then _ else PyFloat.posInf) = PyFloat.posInf
      rw [hz]
      norm_num
  · by_cases hc : (entry_rows df).length = 0
    · rw [process_risk_reward, if_pos hc] at h3
      simp [init_rr_results] at h3
    · rw [process_risk_reward, if_neg hc] at h4 ⊢
      have hz := total_loss_eq_zero_of_no_losers _ h4
      show (if total_loss _ > 0 then _ else PyFloat.posInf) = PyFloat.posInf
      rw [hz]
      norm_num

/-- Witness for `C7_profit_factor_posInf`: `df_one_winner` yields one winning
trade and no losing trade under both variants. -/
theorem C7_profit_factor_posInf_witness :
    (process_profit_target df_one_winner 5 0 0 1 1 1).profit_factor = PyFloat.posInf
    ∧ (process_risk_reward df_one_winner 1 0 0 1 1 1).profit_factor = PyFloat.posInf :=
  C7_profit_factor_posInf df_one_winner 5 1 0 0 1 1 1
    (by norm_num [df_one_winner, process_profit_target, entry_rows, trades_pt, pt_results_of,
      init_pt_results, process_trade_pt, build_trade, scan_exit, winning_count,
      List.enum, List.enumFrom, List.filter, List.filterMap, List.map, List.drop,
      List.getLast?, max_def, abs])
    (by norm_num [df_one_winner, process_profit_target, entry_rows, trades_pt, pt_results_of,
      init_pt_results, process_trade_pt, build_trade, scan_exit, losing_count,
      List.enum, List.enumFrom, List.filter, List.filterMap, List.map, List.drop,
      List.getLast?, max_def, abs])
    (by norm_num [df_one_winner, process_risk_reward, entry_rows, trades_rr, rr_results_of,
      init_rr_results, process_trade_rr, build_trade, scan_exit, winning_count,
      List.enum, List.enumFrom, List.filter, List.filterMap, List.map, List.drop,
      List.getLast?, max_def, abs])
    (by norm_num [df_one_winner, process_risk_reward, entry_rows, trades_rr, rr_results_of,
      init_rr_results, process_trade_rr, build_trade, scan_exit, losing_count,
      List.enum, List.enumFrom, List.filter, List.filterMap, List.map, List.drop,
      List.getLast?, max_def, abs])

/-! ### C10 -/

theorem enumFrom_filter_length (q : BTRow → Bool) :
    ∀ (m : ℕ) (l : List BTRow),
      ((List.enumFrom m l).filter fun pr => q pr.2).length = (l.filter q).length := by
  intro m l
  induction l generalizing m with
  | nil => simp
  | cons r rest ih =>
    simp only [List.enumFrom, List.filter]
    cases hq : q r
    · simpa using ih (m + 1)
    · simpa using ih (m + 1)

theorem snd_mem_of_mem_enumFrom {p : ℕ × BTRow} :
    ∀ {m : ℕ} {l : List BTRow}, p ∈ List.enumFrom m l → p.2 ∈ l := by
  intro m l
  induction l generalizing m with
  | nil => intro h; simp at h
  | cons r rest ih =>
    intro h
    rcases List.mem_cons.mp h with rfl | h'
    · simp
    · exact List.mem_cons_of_mem _ (ih h')

theorem entry_rows_length (df : List BTRow) :
    (entry_rows df).length = (df.filter fun r => r.entry_signal).length := by
  unfold entry_rows List.enum
  exact enumFrom_filter_length _ 0 df

/-- C10, confirmed: `total_trades` counts every row flagged `entry_signal`,
rows with a missing `signal_type` or `stoploss` included; such rows produce
no trade yet stay in the `win_rate` denominator, so a run in which every
entry row is skipped reports an empty trade list, the full entry count as
`total_trades`, and `win_rate = 0`. -/
theorem C10_skipped_entries (df : List BTRow) (pt c sl ps : ℚ) (n : ℕ) (cv : ℚ)
    (hskip : ∀ r ∈ df, r.entry_signal = true → r.signal_type = none ∨ r.stoploss = none) :
    (process_profit_target df pt c sl ps n cv).total_trades
        = (df.filter fun r => r.entry_signal).length
    ∧ (process_profit_target df pt c sl ps n cv).trades = []
    ∧ (process_profit_target df pt c sl ps n cv).win_rate = 0
    ∧ (process_profit_target df pt c sl ps n cv).win_rate
        = ((process_profit_target df pt c sl ps n cv).winning_trades : ℚ)
          / ((process_profit_target df pt c sl ps n cv).total_trades : ℚ) := by
  have htr : trades_pt df pt c sl ps n cv = [] := by
    refine List.filterMap_eq_nil_iff.mpr ?_
    intro pr hpr
    have hmem := List.mem_filter.mp hpr
    have hr : pr.2 ∈ df := snd_mem_of_mem_enumFrom hmem.1
    have hes : pr.2.entry_signal = true := hmem.2
    rcases hskip pr.2 hr hes with h | h
    · simp [process_trade_pt, h]
    · cases hx : pr.2.signal_type <;> simp [process_trade_pt, h, hx]
  by_cases hc : (entry_rows df).length = 0
  · rw [process_profit_target, if_pos hc]
    refine ⟨?_, rfl, rfl, ?_⟩
    · rw [← entry_rows_length, hc]
      rfl
    · simp [init_pt_results]
  · rw [process_profit_target, if_neg hc]
    have hw : winning_count (trades_pt df pt c sl ps n cv) = 0 := by
      rw [htr]
      rfl
    refine ⟨?_, ?_, ?_, ?_⟩
    · simp only [pt_results_of]
      exact entry_rows_length df
    · simp only [pt_results_of]
      exact htr
    · simp only [pt_results_of, hw]
      split <;> norm_num
    · simp only [pt_results_of, hw]
      split <;> norm_num

/-- Witness for `C10_skipped_entries`: on `df_all_skipped` both entry rows are
skipped, yet `total_trades = 2` while the trade list is empty and
`win_rate = 0`. -/
theorem C10_skipped_entries_witness :
    (process_profit_target df_all_skipped 5 0 0 1 1 1).total_trades = 2
    ∧ (process_profit_target df_all_skipped 5 0 0 1 1 1).trades = []
    ∧ (process_profit_target df_all_skipped 5 0 0 1 1 1).win_rate = 0 := by
  have h := C10_skipped_entries df_all_skipped 5 0 0 1 1 1 (by
    intro r hr _hes
    simp only [df_all_skipped, List.mem_cons, List.not_mem_nil, or_false] at hr
    rcases hr with rfl | rfl
    · exact Or.inl rfl
    · exact Or.inr rfl)
  refine ⟨?_, h.2.1, h.2.2.1⟩
  rw [h.1]
  norm_num [df_all_skipped, List.filter]

/-! ### C1 -/

/-- C1, code bug: `backtest` with a non-empty `profit_targets_dollar` list
reaches `self._process_dollar_target(...)` (`backtester.py:76`), but no such
method exists anywhere in the repository, so Python raises an
`AttributeError` instead of returning one aggregate per dollar value — even
on a well-formed DataFrame with a valid entry signal, as here. -/
theorem C1_dollar_variant_raises :
    backtest input_one_long none none (some [100]) 0 0 1 1 100
      = .error .noMethodDollarTarget := rfl

/-! ### C5 -/

theorem scan_exit_stop_first_long (pre : List BTRow) (post : List BTRow) (r : BTRow)
    (stop_loss target entry_price : ℚ) :
    ∀ me mf, (∀ b ∈ pre, ¬b.low ≤ stop_loss ∧ ¬b.high ≥ target) →
      r.low ≤ stop_loss → r.high ≥ target →
      (scan_exit .LONG stop_loss target entry_price me mf (pre ++ r :: post)).exit
        = some (r.ts, stop_loss, ExitType.STOP) := by
  induction pre with
  | nil =>
    intro me mf _ hs _ht
    simp only [List.nil_append, scan_exit]
    rw [if_pos hs]
  | cons b bs ih =>
    intro me mf hpre hs ht
    have hb := hpre b (List.mem_cons_self b bs)
    simp only [List.cons_append, scan_exit]
    rw [if_neg hb.1, if_neg hb.2]
    exact ih _ _ (fun x hx => hpre x (List.mem_cons_of_mem _ hx)) hs ht

theorem scan_exit_stop_first_short (pre : List BTRow) (post : List BTRow) (r : BTRow)
    (stop_loss target entry_price : ℚ) :
    ∀ me mf, (∀ b ∈ pre, ¬b.high ≥ stop_loss ∧ ¬b.low ≤ target) →
      r.high ≥ stop_loss → r.low ≤ target →
      (scan_exit .SHORT stop_loss target entry_price me mf (pre ++ r :: post)).exit
        = some (r.ts, stop_loss, ExitType.STOP) := by
  induction pre with
  | nil =>
    intro me mf _ hs _ht
    simp only [List.nil_append, scan_exit]
    rw [if_pos hs]
  | cons b bs ih =>
    intro me mf hpre hs ht
    have hb := hpre b (List.mem_cons_self b bs)
    simp only [List.cons_append, scan_exit]
    rw [if_neg hb.1, if_neg hb.2]
    exact ih _ _ (fun x hx => hpre x (List.mem_cons_of_mem _ hx)) hs ht

/-- C5, confirmed: in the forward exit scan shared by both variants, the first
bar reached whose range spans both the stop and the target resolves to a STOP
exit at the stop price, never a TARGET — for LONG trades (`low ≤ stop` and
`high ≥ target`) and symmetrically for SHORT trades. -/
theorem C5_stop_beats_target (pre post : List BTRow) (r : BTRow)
    (stop_loss target entry_price me mf : ℚ) :
    ((∀ b ∈ pre, ¬b.low ≤ stop_loss ∧ ¬b.high ≥ target) →
      r.low ≤ stop_loss → r.high ≥ target →
      (scan_exit .LONG stop_loss target entry_price me mf (pre ++ r :: post)).exit
        = some (r.ts, stop_loss, ExitType.STOP))
    ∧ ((∀ b ∈ pre, ¬b.high ≥ stop_loss ∧ ¬b.low ≤ target) →
      r.high ≥ stop_loss → r.low ≤ target →
      (scan_exit .SHORT stop_loss target entry_price me mf (pre ++ r :: post)).exit
        = some (r.ts, stop_loss, ExitType.STOP)) :=
  ⟨scan_exit_stop_first_long pre post r stop_loss target entry_price me mf,
   scan_exit_stop_first_short pre post r stop_loss target entry_price me mf⟩

/-- Witness for `C5_stop_beats_target`: a single bar spanning both levels
exits at the stop in both directions. -/
theorem C5_stop_beats_target_witness :
    (scan_exit .LONG 95 105 100 0 0 [⟨0, 100, 106, 94, false, none, none⟩]).exit
        = some (0, 95, ExitType.STOP)
    ∧ (scan_exit .SHORT 105 95 100 0 0 [⟨0, 100, 106, 94, false, none, none⟩]).exit
        = some (0, 105, ExitType.STOP) :=
  ⟨(C5_stop_beats_target [] [] ⟨0, 100, 106, 94, false, none, none⟩ 95 105 100 0 0).1
      (by simp) (by norm_num) (by norm_num),
   (C5_stop_beats_target [] [] ⟨0, 100, 106, 94, false, none, none⟩ 105 95 100 0 0).2
      (by simp) (by norm_num) (by norm_num)⟩

/-! ### C8 -/

/-- C8, confirmed: the detector fails exactly when neither a datetime index
nor a `date` column is available — the one `MalformedInputError` of the
taxonomy (`ValueError` in the source) — and completes normally on every input
with a derivable timestamp. -/
theorem C8_timestamp_error_iff (p : RedCandleParams) (df : StratInput) :
    (generate_signals p df = .error .malformedInput
      ↔ df.indexIsDatetime = false ∧ df.hasDateColumn = false)
    ∧ ((df.indexIsDatetime = true ∨ df.hasDateColumn = true) →
        except_ok (generate_signals p df) = true) := by
  obtain ⟨i, d, bars⟩ := df
  constructor
  · cases i <;> cases d <;> simp [generate_signals, except_ok]
  · cases i <;> cases d <;> simp [generate_signals, except_ok]

/-- Witness for `C8_timestamp_error_iff`: an input with a datetime index is
processed without raising; one with neither timestamp source fails with the
malformed-input error. -/
theorem C8_timestamp_error_iff_witness :
    except_ok (generate_signals {} ⟨true, false, []⟩) = true
    ∧ generate_signals {} ⟨false, false, []⟩ = .error .malformedInput :=
  ⟨(C8_timestamp_error_iff {} ⟨true, false, []⟩).2 (Or.inl rfl),
   (C8_timestamp_error_iff {} ⟨false, false, []⟩).1.mpr ⟨rfl, rfl⟩⟩

/-! ### C9 -/

/-- C9, confirmed: whenever the breakout candle is well-formed
(`i_low ≤ i_high`), every signal the post-breakout scan emits has its stop on
the strict opposite side of the entry price: LONG stops (the breakout low)
strictly below the entry close, SHORT stops (the breakout high) strictly
above it. -/
theorem C9_stop_opposite_side (i_high i_low : ℚ) (hIL : i_low ≤ i_high) :
    ∀ (ps : List (ℕ × ℚ)) (last : ℚ) (hg lg : Bool),
      ∀ e ∈ (scan_entries i_high i_low last hg lg ps).1,
        (e.2.signal_type = SigType.LONG → e.2.stoploss < e.2.entry_price)
        ∧ (e.2.signal_type = SigType.SHORT → e.2.entry_price < e.2.stoploss) := by
  intro ps
  induction ps with
  | nil =>
    intro last hg lg e he
    simp [scan_entries] at he
  | cons pc rest ih =>
    obtain ⟨p, c⟩ := pc
    intro last hg lg e he
    simp only [scan_entries] at he
    by_cases h1 : c > i_high
    · rw [if_pos h1] at he
      by_cases h2 : last ≤ i_high ∨ (if last > i_high ∧ c ≤ i_high then false else hg) = false
      · rw [if_pos h2] at he
        cases he with
        | head => exact ⟨fun _ => lt_of_le_of_lt hIL h1, fun habs => by simp at habs⟩
        | tail _ he2 => exact ih _ _ _ e he2
      · rw [if_neg h2] at he
        exact ih _ _ _ e he
    · rw [if_neg h1] at he
      by_cases h3 : c < i_low
      · rw [if_pos h3] at he
        by_cases h4 : last ≥ i_low
            ∨ (if ¬(last > i_high ∧ c ≤ i_high) ∧ last < i_low ∧ c ≥ i_low
                then false else lg) = false
        · rw [if_pos h4] at he
          cases he with
          | head =>
            exact ⟨fun habs => by simp at habs, fun _ => lt_of_lt_of_le h3 hIL⟩
          | tail _ he2 => exact ih _ _ _ e he2
        · rw [if_neg h4] at he
          exact ih _ _ _ e he
      · rw [if_neg h3] at he
        exact ih _ _ _ e he

/-- Witness for `C9_stop_opposite_side`: a concrete LONG emission at close 11
over a breakout range [5, 10] carries stop 5, strictly below the entry. -/
theorem C9_stop_opposite_side_witness :
    (SignalEvent.stoploss ⟨SigType.LONG, 11, 5⟩ : ℚ)
      < SignalEvent.entry_price ⟨SigType.LONG, 11, 5⟩ :=
  ((C9_stop_opposite_side 10 5 (by norm_num) [(0, 11)] 7 false false)
    (0, ⟨SigType.LONG, 11, 5⟩)
    (by simp only [scan_entries]
        norm_num)).1 rfl

/-! ### C6 -/

theorem scan_entries_append (i_high i_low : ℚ) (xs ys : List (ℕ × ℚ)) :
    ∀ last hg lg,
      scan_entries i_high i_low last hg lg (xs ++ ys)
        = ((scan_entries i_high i_low last hg lg xs).1
            ++ (scan_entries i_high i_low
                  (scan_entries i_high i_low last hg lg xs).2.1
                  (scan_entries i_high i_low last hg lg xs).2.2.1
                  (scan_entries i_high i_low last hg lg xs).2.2.2 ys).1,
           (scan_entries i_high i_low
              (scan_entries i_high i_low last hg lg xs).2.1
              (scan_entries i_high i_low last hg lg xs).2.2.1
              (scan_entries i_high i_low last hg lg xs).2.2.2 ys).2) := by
  induction xs with
  | nil =>
    intro last hg lg
    simp [scan_entries]
  | cons pc rest ih =>
    obtain ⟨p, c⟩ := pc
    intro last hg lg
    simp only [List.cons_append, scan_entries]
    split_ifs <;> simp [ih]

theorem scan_entries_stay_in_range (i_high i_low : ℚ) (xs : List (ℕ × ℚ)) :
    ∀ last hg lg, i_low ≤ last → last ≤ i_high →
      (∀ q ∈ xs, i_low ≤ q.2 ∧ q.2 ≤ i_high) →
      ∃ last', scan_entries i_high i_low last hg lg xs = ([], (last', hg, lg))
        ∧ i_low ≤ last' ∧ last' ≤ i_high := by
  induction xs with
  | nil =>
    intro last hg lg h1 h2 _
    exact ⟨last, rfl, h1, h2⟩
  | cons pc rest ih =>
    obtain ⟨p, c⟩ := pc
    intro last hg lg h1 h2 hxs
    obtain ⟨hcl, hch⟩ := hxs (p, c) (List.mem_cons_self _ _)
    obtain ⟨last', heq, hb1, hb2⟩ :=
      ih c hg lg hcl hch (fun q hq => hxs q (List.mem_cons_of_mem _ hq))
    refine ⟨last', ?_, hb1, hb2⟩
    simp only [scan_entries]
    rw [if_neg (fun hc : last > i_high ∧ c ≤ i_high => absurd hc.1 (not_lt.mpr h2)),
        if_neg (fun hc : ¬(last > i_high ∧ c ≤ i_high) ∧ last < i_low ∧ c ≥ i_low =>
          absurd hc.2.1 (not_lt.mpr h1)),
        if_neg (not_lt.mpr hch), if_neg (not_lt.mpr hcl)]
    exact heq

theorem scan_entries_above_tail (i_high i_low : ℚ) (hIL : i_low ≤ i_high)
    (xs : List (ℕ × ℚ)) :
    ∀ last lg, i_high < last → (∀ q ∈ xs, i_high < q.2) →
      ∃ last', scan_entries i_high i_low last true lg xs = ([], (last', true, lg))
        ∧ i_high < last' := by
  induction xs with
  | nil =>
    intro last lg h _
    exact ⟨last, rfl, h⟩
  | cons pc rest ih =>
    obtain ⟨p, c⟩ := pc
    intro last lg hlast hxs
    have hc := hxs (p, c) (List.mem_cons_self _ _)
    obtain ⟨last', heq, hl2⟩ := ih c lg hc (fun q hq => hxs q (List.mem_cons_of_mem _ hq))
    refine ⟨last', ?_, hl2⟩
    simp only [scan_entries]
    rw [if_neg (fun hx : last > i_high ∧ c ≤ i_high => absurd hx.2 (not_le.mpr hc)),
        if_neg (fun hx : ¬(last > i_high ∧ c ≤ i_high) ∧ last < i_low ∧ c ≥ i_low =>
          absurd hx.2.1 (not_lt.mpr (le_trans hIL (le_of_lt hlast)))),
        if_pos hc,
        if_neg (fun hx : last ≤ i_high ∨ (true : Bool) = false =>
          hx.elim (fun hx1 => absurd hlast (not_lt.mpr hx1)) (fun hx2 => Bool.noConfusion hx2))]
    exact heq

theorem scan_entries_break_above (i_high i_low : ℚ) (hIL : i_low ≤ i_high)
    (p : ℕ) (c : ℚ) (xs : List (ℕ × ℚ)) :
    ∀ last hg lg, i_low ≤ last → last ≤ i_high → i_high < c →
      (∀ q ∈ xs, i_high < q.2) →
      ∃ last', scan_entries i_high i_low last hg lg ((p, c) :: xs)
          = ([(p, ⟨SigType.LONG, c, i_low⟩)], (last', true, lg))
        ∧ i_high < last' := by
  intro last hg lg h1 h2 hc hxs
  obtain ⟨last', heq, hl2⟩ := scan_entries_above_tail i_high i_low hIL xs c lg hc hxs
  refine ⟨last', ?_, hl2⟩
  simp only [scan_entries]
  rw [if_neg (fun hx : last > i_high ∧ c ≤ i_high => absurd hx.1 (not_lt.mpr h2)),
      if_neg (fun hx : ¬(last > i_high ∧ c ≤ i_high) ∧ last < i_low ∧ c ≥ i_low =>
        absurd hx.2.1 (not_lt.mpr h1)),
      if_pos hc, if_pos (Or.inl h2), heq]

theorem scan_entries_reenter (i_high i_low : ℚ)
    (p : ℕ) (c : ℚ) (xs : List (ℕ × ℚ)) :
    ∀ last hg lg, i_high < last → i_low ≤ c → c ≤ i_high →
      (∀ q ∈ xs, i_low ≤ q.2 ∧ q.2 ≤ i_high) →
      ∃ last', scan_entries i_high i_low last hg lg ((p, c) :: xs)
          = ([], (last', false, lg))
        ∧ i_low ≤ last' ∧ last' ≤ i_high := by
  intro last hg lg hlast hcl hch hxs
  obtain ⟨last', heq, hb1, hb2⟩ :=
    scan_entries_stay_in_range i_high i_low xs c false lg hcl hch hxs
  refine ⟨last', ?_, hb1, hb2⟩
  simp only [scan_entries]
  rw [if_pos (⟨hlast, hch⟩ : last > i_high ∧ c ≤ i_high),
      if_neg (fun hx : ¬(last > i_high ∧ c ≤ i_high) ∧ last < i_low ∧ c ≥ i_low =>
        hx.1 ⟨hlast, hch⟩),
      if_neg (not_lt.mpr hch), if_neg (not_lt.mpr hcl), heq]

theorem count_long_append (a b : List (ℕ × SignalEvent)) :
    count_long (a ++ b) = count_long a + count_long b := by
  simp [count_long, List.filter_append]

/-- C6, confirmed: starting anywhere inside the breakout range, a close path
that stays in range (`A`), breaks strictly above the breakout high (`B`),
falls back into the range — never below the breakout low (`C`) — and breaks
above again (`D`) makes the post-breakout scan emit exactly two LONG
signals, one per breakout run: the latch blocks duplicates inside a run and
the pullback re-arms it. -/
theorem C6_rearm_exactly_two (i_high i_low last : ℚ) (hg lg : Bool)
    (A B C D : List (ℕ × ℚ))
    (hIL : i_low ≤ i_high) (hl1 : i_low ≤ last) (hl2 : last ≤ i_high)
    (hA : ∀ q ∈ A, i_low ≤ q.2 ∧ q.2 ≤ i_high)
    (hBne : B ≠ []) (hB : ∀ q ∈ B, i_high < q.2)
    (hCne : C ≠ []) (hC : ∀ q ∈ C, i_low ≤ q.2 ∧ q.2 ≤ i_high)
    (hDne : D ≠ []) (hD : ∀ q ∈ D, i_high < q.2) :
    count_long (scan_entries i_high i_low last hg lg (A ++ (B ++ (C ++ D)))).1 = 2 := by
  obtain ⟨b0, bs, rfl⟩ := List.exists_cons_of_ne_nil hBne
  obtain ⟨c0, cs, rfl⟩ := List.exists_cons_of_ne_nil hCne
  obtain ⟨d0, ds, rfl⟩ := List.exists_cons_of_ne_nil hDne
  obtain ⟨pb, cb⟩ := b0
  obtain ⟨pc0, cc⟩ := c0
  obtain ⟨pd, cd⟩ := d0
  obtain ⟨lA, eA, hlA1, hlA2⟩ :=
    scan_entries_stay_in_range i_high i_low A last hg lg hl1 hl2 hA
  obtain ⟨lB, eB, hlB⟩ := scan_entries_break_above i_high i_low hIL pb cb bs lA hg lg
    hlA1 hlA2 (hB (pb, cb) (List.mem_cons_self _ _))
    (fun q hq => hB q (List.mem_cons_of_mem _ hq))
  obtain ⟨lC, eC, hlC1, hlC2⟩ := scan_entries_reenter i_high i_low pc0 cc cs lB true lg
    hlB (hC (pc0, cc) (List.mem_cons_self _ _)).1 (hC (pc0, cc) (List.mem_cons_self _ _)).2
    (fun q hq => hC q (List.mem_cons_of_mem _ hq))
  obtain ⟨lD, eD, hlD⟩ := scan_entries_break_above i_high i_low hIL pd cd ds lC false lg
    hlC1 hlC2 (hD (pd, cd) (List.mem_cons_self _ _))
    (fun q hq => hD q (List.mem_cons_of_mem _ hq))
  rw [scan_entries_append, eA]
  dsimp only
  rw [scan_entries_append, eB]
  dsimp only
  rw [scan_entries_append, eC]
  dsimp only
  rw [eD]
  simp [count_long, List.filter]

/-- Witness for `C6_rearm_exactly_two`: closes 11 / 9 / 12 around a breakout
range [5, 10] yield exactly two LONG signals. -/
theorem C6_rearm_exactly_two_witness :
    count_long (scan_entries 10 5 7 false false
      ([] ++ ([(0, 11)] ++ ([(1, 9)] ++ [(2, 12)])))).1 = 2 :=
  C6_rearm_exactly_two 10 5 7 false false [] [(0, 11)] [(1, 9)] [(2, 12)]
    (by norm_num) (by norm_num) (by norm_num)
    (by intro q hq; simp at hq)
    (by simp)
    (by intro q hq
        simp only [List.mem_singleton] at hq
        rw [hq]
        norm_num)
    (by simp)
    (by intro q hq
        simp only [List.mem_singleton] at hq
        rw [hq]
        norm_num)
    (by simp)
    (by intro q hq
        simp only [List.mem_singleton] at hq
        rw [hq]
        norm_num)

/-! ### C4 -/

/-- C4, corrected.  The claim as stated is false: the oscillator's average
gain/loss is a plain `rolling(period).mean()`, not Wilder recursive smoothing
(see `C4_counterexample`, where the two disagree on a concrete series).
Amended claim: when the filter mode is enabled, the oscillator is computed
over the configurable lookback (default 14) with the average gain and loss
equal to the arithmetic mean of the trailing `period`-bar window of the
per-bar gain/loss series (whose first entry is the zero the source's
`where` puts in place of the leading `NaN` diff). -/
theorem C4_rolling_mean_window (period : ℕ) (closes : List ℚ) (i : ℕ)
    (hg : i < (gains closes).length) (hl : i < (losses closes).length)
    (hp : period ≤ i + 1) :
    ((code_avg_gain period closes)[i]?
        = some (some ((((gains closes).take (i + 1)).drop (i + 1 - period)).sum / (period : ℚ)))
      ∧ (((gains closes).take (i + 1)).drop (i + 1 - period)).length = period)
    ∧ ((code_avg_loss period closes)[i]?
        = some (some ((((losses closes).take (i + 1)).drop (i + 1 - period)).sum / (period : ℚ)))
      ∧ (((losses closes).take (i + 1)).drop (i + 1 - period)).length = period)
    ∧ ({} : RedCandleParams).rsi_period = 14 := by
  refine ⟨⟨?_, ?_⟩, ⟨?_, ?_⟩, rfl⟩
  · unfold code_avg_gain rolling_mean
    rw [List.getElem?_map, List.getElem?_range hg]
    simp only [Option.map_some']
    rw [if_pos hp]
  · rw [List.length_drop, List.length_take]
    omega
  · unfold code_avg_loss rolling_mean
    rw [List.getElem?_map, List.getElem?_range hl]
    simp only [Option.map_some']
    rw [if_pos hp]
  · rw [List.length_drop, List.length_take]
    omega

/-- C4, counterexample to the claim as stated: on `closes_flat` with the
default 14-bar lookback, the average gain the code uses at the last bar is 0
(the one gain has left the rolling window), while Wilder smoothing of the
same per-bar gains gives 13/14. -/
theorem C4_counterexample :
    code_avg_gain_last 14 closes_flat = some 0
    ∧ wilder_avg_gain_last 14 closes_flat = some (13 / 14)
    ∧ code_avg_gain_last 14 closes_flat ≠ wilder_avg_gain_last 14 closes_flat := by
  refine ⟨?_, ?_, ?_⟩
  · norm_num [closes_flat, code_avg_gain_last, code_avg_gain, rolling_mean, gains,
      gains_aux, List.range_succ, List.getLast?, List.getLast, List.take, List.drop,
      List.sum, Option.join]
  · norm_num [closes_flat, wilder_avg_gain_last, per_bar_gains, wilder_smooth,
      gains_aux, List.take, List.drop, List.sum]
  · norm_num [closes_flat, code_avg_gain_last, code_avg_gain, rolling_mean, gains,
      gains_aux, wilder_avg_gain_last, per_bar_gains, wilder_smooth, List.range_succ,
      List.getLast?, List.getLast, List.take, List.drop, List.sum, Option.join]

/-- Witness for `C4_rolling_mean_window`: the 2-bar average gain of the series
`[1, 3, 2]` at the last position is the mean of the last two gains. -/
theorem C4_rolling_mean_window_witness :
    (code_avg_gain 2 [1, 3, 2])[2]?
      = some (some ((((gains [1, 3, 2]).take 3).drop 1).sum / (2 : ℚ))) :=
  ((C4_rolling_mean_window 2 [1, 3, 2] 2 (by simp [gains, gains_aux])
    (by simp [losses, losses_aux]) (by norm_num)).1).1

end TradingLab
